import Mathlib

set_option autoImplicit false

/-!
A shallow embedding of `src/alot/command.py`: the command registry
(`COMMANDS`), the factory (`commandfactory`), the command-line
interpreter (`interpret_commandline`), a state model of
`FlushCommand.apply` with the main-loop alarm queue, and a heap model
of the registry used to express the frame property of `commandfactory`
(the `parms.copy()` line).
-/

/-- Python runtime values that flow through command parameters:
`None`, strings, booleans, integers, string-valued dicts (the
`headers={'To': params}` argument of `compose`), and zero-argument
callables (plain values carry no other callables in this module). -/
inductive Value where
  | none
  | str (s : String)
  | bool (b : Bool)
  | int (n : Int)
  | dict (d : List (String × String))
  | thunk (f : Unit → Value)

/-- Python `callable(value)` restricted to the values above. -/
def callable : Value → Bool
  | Value.thunk _ => true
  | _ => false

/-- Calling a zero-argument callable (`value()`); other values are left as is. -/
def force : Value → Value
  | Value.thunk f => f ()
  | v => v

/-- Python truthiness of the values above (`assert tag`). -/
def truthy : Value → Bool
  | Value.none => false
  | Value.str s => !(s == "")
  | Value.bool b => b
  | Value.int n => !(n == 0)
  | Value.dict d => !d.isEmpty
  | Value.thunk _ => true

/-- The body of the `for (key, value) in kwargs.items()` loop of
`commandfactory`: call the value if it is callable, else keep it. -/
def pyforce (v : Value) : Value :=
  if callable v then force v else v

/-- A Python dict keyed by strings, as an insertion-ordered association list. -/
abbrev Dict := List (String × Value)

/-- Dict lookup (`d[key]` / `key in d`). -/
def dlookup : Dict → String → Option Value
  | [], _ => Option.none
  | (k, v) :: tl, key => if k = key then some v else dlookup tl key

/-- Dict assignment `d[key] = val`: replace in place if the key is
present, else append (Python dicts keep insertion order). -/
def dinsert : Dict → String → Value → Dict
  | [], key, val => [(key, val)]
  | (k, v) :: tl, key, val =>
      if k = key then (key, val) :: tl else (k, v) :: dinsert tl key val

/-- Assign every pair of `kw` into `d`, transforming each value with `g`.
With `g = id` this is Python's `d.update(kw)`; with `g = pyforce` it is
the callable-forcing loop of `commandfactory`. -/
def dfold (g : Value → Value) (d : Dict) (kw : Dict) : Dict :=
  kw.foldl (fun acc p => dinsert acc p.1 (g p.2)) d

/-- The concrete command classes of `alot/command.py` (the values of
the registry and the results of dispatch). -/
inductive CmdClass where
  | exitC | openThreadC | searchC | promptC | refreshC | externalC | editC
  | pythonShellC | bufferCloseC | bufferFocusC | openBufferlistC | tagListC
  | commandPromptC | flushC | toggleThreadTagC | composeC | retagPromptC
  | retagC | refineC | refinePromptC | replyC | forwardC | bounceMailC
  | foldMessagesC | envelopeOpenC | envelopeEditC | envelopeSetC
  | envelopeSendC | taglistSelectC
  deriving DecidableEq

/-- The interactive modes: the keys of `COMMANDS`. -/
inductive Mode where
  | search | envelope | bufferlist | taglist | thread | global
  deriving DecidableEq

/-- Exceptions that can escape the embedded fragment:
`AssertionError` (the `assert tag` of `ToggleThreadTagCommand.__init__`),
`TypeError` (a required constructor argument missing), and
`UnboundLocalError` (`parms` used after the unknown-command branch of
`commandfactory` assigned nothing to it). -/
inductive PyError where
  | assertionError
  | typeError
  | unboundLocalError
  deriving DecidableEq

/-- A constructed command: its class and the named arguments it received. -/
structure Cmd where
  cls : CmdClass
  parms : Dict

/-- Constructor behaviour relevant to dispatch: every class accepts and
ignores unknown keys; `SearchCommand`, `ExternalCommand`, `EditCommand`
and `ToggleThreadTagCommand` have one required argument each
(`query`, `commandstring`, `path`, `tag`), and
`ToggleThreadTagCommand.__init__` runs `assert tag`. -/
def construct (cls : CmdClass) (parms : Dict) : Except PyError Cmd :=
  match cls with
  | CmdClass.searchC =>
      if (dlookup parms "query").isSome then Except.ok ⟨cls, parms⟩
      else Except.error PyError.typeError
  | CmdClass.externalC =>
      if (dlookup parms "commandstring").isSome then Except.ok ⟨cls, parms⟩
      else Except.error PyError.typeError
  | CmdClass.editC =>
      if (dlookup parms "path").isSome then Except.ok ⟨cls, parms⟩
      else Except.error PyError.typeError
  | CmdClass.toggleThreadTagC =>
      match dlookup parms "tag" with
      | Option.none => Except.error PyError.typeError
      | some v => if truthy v then Except.ok ⟨cls, parms⟩
                  else Except.error PyError.assertionError
  | _ => Except.ok ⟨cls, parms⟩

/-- `COMMANDS`: for each mode, name → (command class, default parameters). -/
def cmdTable : Mode → List (String × CmdClass × Dict)
  | Mode.search =>
      [("refine", (CmdClass.refineC, [])),
       ("refineprompt", (CmdClass.refinePromptC, [])),
       ("openthread", (CmdClass.openThreadC, [])),
       ("toggletag", (CmdClass.toggleThreadTagC, [("tag", Value.str "inbox")])),
       ("retag", (CmdClass.retagC, [])),
       ("retagprompt", (CmdClass.retagPromptC, []))]
  | Mode.envelope =>
      [("send", (CmdClass.envelopeSendC, [])),
       ("reedit", (CmdClass.envelopeEditC, [])),
       ("subject", (CmdClass.envelopeSetC, [("key", Value.str "Subject")])),
       ("to", (CmdClass.envelopeSetC, [("key", Value.str "To")]))]
  | Mode.bufferlist =>
      [("closefocussed", (CmdClass.bufferCloseC, [("focussed", Value.bool true)])),
       ("openfocussed", (CmdClass.bufferFocusC, []))]
  | Mode.taglist =>
      [("select", (CmdClass.taglistSelectC, []))]
  | Mode.thread =>
      [("reply", (CmdClass.replyC, [])),
       ("groupreply", (CmdClass.replyC, [("groupreply", Value.bool true)])),
       ("forward", (CmdClass.forwardC, [])),
       ("bounce", (CmdClass.bounceMailC, [])),
       ("fold", (CmdClass.foldMessagesC, [("visible", Value.bool true)])),
       ("unfold", (CmdClass.foldMessagesC, [("visible", Value.bool false)]))]
  | Mode.global =>
      [("bnext", (CmdClass.bufferFocusC, [("offset", Value.int 1)])),
       ("bprevious", (CmdClass.bufferFocusC, [("offset", Value.int (-1))])),
       ("bufferlist", (CmdClass.openBufferlistC, [])),
       ("close", (CmdClass.bufferCloseC, [])),
       ("commandprompt", (CmdClass.commandPromptC, [])),
       ("compose", (CmdClass.composeC, [])),
       ("edit", (CmdClass.editC, [])),
       ("exit", (CmdClass.exitC, [])),
       ("flush", (CmdClass.flushC, [])),
       ("prompt", (CmdClass.promptC, [])),
       ("pyshell", (CmdClass.pythonShellC, [])),
       ("refresh", (CmdClass.refreshC, [])),
       ("search", (CmdClass.searchC, [])),
       ("shellescape", (CmdClass.externalC, [])),
       ("taglist", (CmdClass.tagListC, []))]

/-- Lookup of a name in one mode's table (`cmdname in COMMANDS[mode]`). -/
def tlookup : List (String × CmdClass × Dict) → String → Option (CmdClass × Dict)
  | [], _ => Option.none
  | (k, e) :: tl, key => if k = key then some e else tlookup tl key

/-- The parameter merge of `commandfactory`:
`parms = parms.copy(); parms.update(kwargs);` then the callable-forcing
loop over `kwargs`, then the `prehook`/`posthook` assignments from
`settings.hooks.get('pre_'+cmdname)` / `...('post_'+cmdname)`. -/
def mergeParms (defaults kwargs : Dict) (hooks : String → Value) (cmdname : String) : Dict :=
  dinsert
    (dinsert (dfold pyforce (dfold id defaults kwargs) kwargs)
      "prehook" (hooks ("pre_" ++ cmdname)))
    "posthook" (hooks ("post_" ++ cmdname))

/-- `commandfactory(cmdname, mode, **kwargs)`.  When the name is in
neither table, the code logs and falls through to `parms.copy()` with
the local `parms` never assigned: an `UnboundLocalError`. -/
def commandfactory (hooks : String → Value) (cmdname : String) (mode : Mode)
    (kwargs : Dict) : Except PyError Cmd :=
  match tlookup (cmdTable mode) cmdname with
  | some (cls, parms) => construct cls (mergeParms parms kwargs hooks cmdname)
  | Option.none =>
      match tlookup (cmdTable Mode.global) cmdname with
      | some (cls, parms) => construct cls (mergeParms parms kwargs hooks cmdname)
      | Option.none => Except.error PyError.unboundLocalError

/-- The two-stage registry lookup performed by `commandfactory`. -/
def regLookup (mode : Mode) (cmdname : String) : Option (CmdClass × Dict) :=
  match tlookup (cmdTable mode) cmdname with
  | some e => some e
  | Option.none => tlookup (cmdTable Mode.global) cmdname

/-- External collaborators of `interpret_commandline`: the
`command-aliases` config section, `os.path.expanduser`,
`os.path.isfile`, and `settings.hooks` (absent hook entries are `None`,
which is what `dict.get` returns). -/
structure Env where
  aliases : String → Option String
  expanduser : String → String
  isfile : String → Bool
  hooks : String → Value

/-- The whitespace characters removed by Python's `str.strip()`. -/
def isPySpace (c : Char) : Bool :=
  c = ' ' || c = '\t' || c = '\n' || c = '\r' || c = '\x0b' || c = '\x0c'

/-- Python `s.strip()`. -/
def pystrip (s : String) : String :=
  String.mk (((s.toList.dropWhile isPySpace).reverse.dropWhile isPySpace).reverse)

/-- Python `s.startswith('!')`. -/
def startsWithBang (s : String) : Bool :=
  match s.toList with
  | '!' :: _ => true
  | _ => false

/-- Python `s[1:]`. -/
def pytail (s : String) : String :=
  String.mk s.toList.tail

/-- `cmdline.strip().split(' ', 1)` on the character list: text before
the first space, and optionally the text after it. -/
def splitOnceAux : List Char → List Char × Option (List Char)
  | [] => ([], Option.none)
  | c :: cs =>
      if c = ' ' then ([], some cs)
      else
        let r := splitOnceAux cs
        (c :: r.1, r.2)

/-- Split a string at the first space: `(args[0], args[1] or '')`. -/
def splitOnce (s : String) : String × String :=
  let r := splitOnceAux s.toList
  (String.mk r.1, String.mk (r.2.getD []))

/-- The command token after stripping, splitting and one alias lookup. -/
def parsedCmd (env : Env) (line : String) : String :=
  match env.aliases (splitOnce (pystrip line)).1 with
  | some e => e
  | Option.none => (splitOnce (pystrip line)).1

/-- The parameter blob: what follows the first space of the stripped line. -/
def parsedRest (line : String) : String :=
  (splitOnce (pystrip line)).2

/-- The list of the `elif not params and cmd in [...]` branch of
`interpret_commandline`. -/
def noParamNames : List String :=
  ["exit", "flush", "pyshell", "taglist", "close", "compose", "openfocussed",
   "closefocussed", "bnext", "bprevious", "retag", "refresh", "bufferlist",
   "refineprompt", "reply", "forward", "groupreply", "bounce", "openthread",
   "send", "reedit", "select", "retagprompt"]

/-- The `if cmd == ... : return commandfactory(...)` chain of
`interpret_commandline`, entered after the mode-visibility check. -/
def dispatch (env : Env) (mode : Mode) (cmd params : String) : Except PyError (Option Cmd) :=
  if cmd = "search" then
    (commandfactory env.hooks cmd mode [("query", Value.str params)]).map some
  else if cmd = "compose" then
    (commandfactory env.hooks cmd mode [("headers", Value.dict [("To", params)])]).map some
  else if cmd = "prompt" then
    (commandfactory env.hooks cmd mode [("startstring", Value.str params)]).map some
  else if cmd = "refine" then
    (commandfactory env.hooks cmd mode [("query", Value.str params)]).map some
  else if cmd = "retag" then
    (commandfactory env.hooks cmd mode [("tagsstring", Value.str params)]).map some
  else if cmd = "subject" then
    (commandfactory env.hooks cmd mode
      [("key", Value.str "Subject"), ("value", Value.str params)]).map some
  else if cmd = "shellescape" then
    (commandfactory env.hooks cmd mode [("commandstring", Value.str params)]).map some
  else if cmd = "to" then
    (commandfactory env.hooks cmd mode
      [("key", Value.str "To"), ("value", Value.str params)]).map some
  else if cmd = "toggletag" then
    (commandfactory env.hooks cmd mode [("tag", Value.str params)]).map some
  else if cmd = "fold" then
    (commandfactory env.hooks cmd mode [("all", Value.bool (params = "all"))]).map some
  else if cmd = "unfold" then
    (commandfactory env.hooks cmd mode [("all", Value.bool (params = "all"))]).map some
  else if cmd = "edit" then
    let filepath := env.expanduser params
    if env.isfile filepath then
      (commandfactory env.hooks cmd mode [("path", Value.str filepath)]).map some
    else Except.ok Option.none
  else if params = "" ∧ cmd ∈ noParamNames then
    (commandfactory env.hooks cmd mode []).map some
  else Except.ok Option.none

/-- The tail of `interpret_commandline` after alias substitution: the
`!` shorthand rewrite, the mode-visibility check, and the dispatch chain. -/
def interpretAfterAlias (env : Env) (mode : Mode) (cmd1 params0 : String) :
    Except PyError (Option Cmd) :=
  let p1 := if startsWithBang cmd1 then ("shellescape", pytail cmd1 ++ " " ++ params0)
            else (cmd1, params0)
  if (tlookup (cmdTable mode) p1.1).isNone && (tlookup (cmdTable Mode.global) p1.1).isNone then
    Except.ok Option.none
  else dispatch env mode p1.1 p1.2

/-- `interpret_commandline(cmdline, mode)`. -/
def interpret_commandline (env : Env) (cmdline : String) (mode : Mode) :
    Except PyError (Option Cmd) :=
  if cmdline = "" then Except.ok Option.none
  else interpretAfterAlias env mode (parsedCmd env cmdline) (parsedRest cmdline)

/-- An environment with no aliases, no existing files and no hooks. -/
def env0 : Env :=
  { aliases := fun _ => Option.none
    expanduser := id
    isfile := fun _ => false
    hooks := fun _ => Value.none }

/-- A hook table with every entry absent (`dict.get` returns `None`). -/
def hooks0 : String → Value := fun _ => Value.none

/-- No value of the dict is callable. -/
def noThunkDict (d : Dict) : Bool :=
  d.all (fun p => !(callable p.2))

/-- An environment whose alias table maps `x` to `exit` and `exit` to
`flush`: an alias whose expansion is itself an alias name. -/
def envChain : Env :=
  { env0 with
    aliases := fun s =>
      if s = "x" then some "exit"
      else if s = "exit" then some "flush"
      else Option.none }

/-- Call-site parameters with a deferred (callable) value. -/
def kwEx : Dict := [("query", Value.thunk (fun _ => Value.str "live"))]

/-- The command `commandfactory hooks0 "search" Mode.global kwEx` builds. -/
def cEx : Cmd :=
  { cls := CmdClass.searchC
    parms := mergeParms [] kwEx hooks0 "search" }

/-- The command `commandfactory hooks0 "toggletag" Mode.search
[("tag", Value.str "urgent")]` builds. -/
def cUrgent : Cmd :=
  { cls := CmdClass.toggleThreadTagC
    parms := mergeParms [("tag", Value.str "inbox")] [("tag", Value.str "urgent")]
      hooks0 "toggletag" }

/-! ## State model of `FlushCommand.apply` -/

/-- The one exception `FlushCommand.apply` handles:
`DatabaseLockedError` raised by `ui.dbman.flush()`. -/
inductive DBError where
  | databaseLocked
  deriving DecidableEq

/-- The slice of the application context `FlushCommand.apply` touches:
the store (attempt number → did the flush commit?), the count of flush
attempts made, whether a flush has committed, the pending
`set_alarm_in` delays (each alarm re-runs `apply`), the notifications
shown, and the configured `flush_retry_timeout`. -/
structure FlushUI where
  store : Nat → Bool
  attempts : Nat
  flushed : Bool
  alarms : List Nat
  notifications : List String
  timeout : Nat

/-- `ui.dbman.flush()`: consult the store for the current attempt;
raise `DatabaseLockedError` when it is locked. -/
def dbman_flush (ui : FlushUI) : Except DBError Unit × FlushUI :=
  if ui.store ui.attempts then
    (Except.ok (), { ui with attempts := ui.attempts + 1, flushed := true })
  else
    (Except.error DBError.databaseLocked, { ui with attempts := ui.attempts + 1 })

/-- `'index locked, will try again in %d secs' % timeout`. -/
def lockedMsg (t : Nat) : String :=
  "index locked, will try again in " ++ toString t ++ " secs"

/-- `FlushCommand.apply`: try to flush; on `DatabaseLockedError`, read
the configured timeout, schedule a re-run of `apply` via
`ui.mainloop.set_alarm_in`, and notify the user.  The handler returns
normally, so the caller never sees the exception. -/
def flushApply (ui : FlushUI) : Except DBError FlushUI :=
  match dbman_flush ui with
  | (Except.ok _, ui1) => Except.ok ui1
  | (Except.error DBError.databaseLocked, ui1) =>
      Except.ok { ui1 with
        alarms := ui1.timeout :: ui1.alarms,
        notifications := lockedMsg ui1.timeout :: ui1.notifications }

/-- The main loop firing pending alarms: each scheduled callback is the
`f` that re-runs `FlushCommand.apply`; `fuel` bounds the number of
alarm deliveries considered. -/
def runAlarms : FlushUI → Nat → Except DBError FlushUI
  | ui, 0 => Except.ok ui
  | ui, fuel + 1 =>
      match ui.alarms with
      | [] => Except.ok ui
      | _ :: rest =>
          match flushApply { ui with alarms := rest } with
          | Except.ok ui1 => runAlarms ui1 fuel
          | Except.error e => Except.error e

/-- A store that reports locked on the first two attempts and commits
on the third, with no flush yet attempted. -/
def flushScenarioUI : FlushUI :=
  { store := fun n => decide (2 ≤ n)
    attempts := 0
    flushed := false
    alarms := []
    notifications := []
    timeout := 5 }

/-- A store that is always locked, with `flush_retry_timeout = 7`. -/
def uiLockedEx : FlushUI :=
  { store := fun _ => false
    attempts := 0
    flushed := false
    alarms := []
    notifications := []
    timeout := 7 }

/-! ## Heap model of the registry (for the frame property of
`commandfactory`): the registry maps (mode, name) to a command class
and a reference to a mutable default-parameter dict; `parms.copy()`
allocates a fresh dict and all subsequent assignments hit the copy. -/

/-- A heap of mutable dicts: addresses below `size` are allocated. -/
structure Heap where
  size : Nat
  mem : Nat → Dict

/-- Overwrite the dict at address `r`. -/
def Heap.write (h : Heap) (r : Nat) (d : Dict) : Heap :=
  { h with mem := fun x => if x = r then d else h.mem x }

/-- Allocate a fresh dict (`parms.copy()`), returning its address. -/
def Heap.alloc (h : Heap) (d : Dict) : Nat × Heap :=
  (h.size, { size := h.size + 1, mem := fun x => if x = h.size then d else h.mem x })

/-- The modes in the order `COMMANDS` lists them. -/
def modeList : List Mode :=
  [Mode.search, Mode.envelope, Mode.bufferlist, Mode.taglist, Mode.thread, Mode.global]

/-- All registry entries, flattened in table order. -/
def cmdEntries : List (Mode × String × CmdClass × Dict) :=
  modeList.flatMap (fun m => (cmdTable m).map (fun e => (m, e.1, e.2.1, e.2.2)))

/-- Assign each registry entry the address of its default dict. -/
def refAssign : List (Mode × String × CmdClass × Dict) → Nat → Mode → String →
    Option (CmdClass × Nat)
  | [], _, _, _ => Option.none
  | (m, nm, c, _) :: tl, i, mode, name =>
      if m = mode ∧ nm = name then some (c, i) else refAssign tl (i + 1) mode name

/-- The registry as references into the heap. -/
def regRefs (mode : Mode) (name : String) : Option (CmdClass × Nat) :=
  refAssign cmdEntries 0 mode name

/-- The initial heap: address `i` holds the default dict of the `i`-th
registry entry. -/
def initHeap : Heap :=
  { size := cmdEntries.length
    mem := fun i => ((cmdEntries.get? i).map (fun e => e.2.2.2)).getD [] }

/-- `commandfactory` against the mutable registry: look the name up in
the mode table, falling back to `global`; copy the default dict into a
fresh cell; run `update`, the callable-forcing loop and the hook
assignments against the copy; construct from the copy. -/
def commandfactoryH (h : Heap) (hooks : String → Value) (cmdname : String)
    (mode : Mode) (kwargs : Dict) : Except PyError Cmd × Heap :=
  match (match regRefs mode cmdname with
         | some e => some e
         | Option.none => regRefs Mode.global cmdname) with
  | Option.none => (Except.error PyError.unboundLocalError, h)
  | some (cls, r) =>
      let d := h.mem r
      let ah := h.alloc d
      let r1 := ah.1
      let h1 := ah.2
      let h2 := h1.write r1 (dfold id (h1.mem r1) kwargs)
      let h3 := h2.write r1 (dfold pyforce (h2.mem r1) kwargs)
      let h4 := h3.write r1 (dinsert (h3.mem r1) "prehook" (hooks ("pre_" ++ cmdname)))
      let h5 := h4.write r1 (dinsert (h4.mem r1) "posthook" (hooks ("post_" ++ cmdname)))
      (construct cls (h5.mem r1), h5)

/-- A sequence of factory resolutions, threading the heap. -/
def runFactoryCalls (h : Heap) : List ((String → Value) × String × Mode × Dict) → Heap
  | [] => h
  | c :: tl => runFactoryCalls (commandfactoryH h c.1 c.2.1 c.2.2.1 c.2.2.2).2 tl

/-! ## Dict lemmas -/

theorem dfold_nil (g : Value → Value) (d : Dict) : dfold g d [] = d := rfl

theorem dfold_cons (g : Value → Value) (d : Dict) (p : String × Value) (tl : Dict) :
    dfold g d (p :: tl) = dfold g (dinsert d p.1 (g p.2)) tl := rfl

theorem dlookup_dinsert_self (d : Dict) (k : String) (v : Value) :
    dlookup (dinsert d k v) k = some v := by
  induction d with
  | nil => simp [dinsert, dlookup]
  | cons p tl ih =>
      obtain ⟨k', v'⟩ := p
      by_cases h : k' = k
      · simp [dinsert, h, dlookup]
      · simp [dinsert, h, dlookup, ih]

theorem dlookup_dinsert_other (d : Dict) (k k' : String) (v : Value) (h : k' ≠ k) :
    dlookup (dinsert d k' v) k = dlookup d k := by
  induction d with
  | nil => simp [dinsert, dlookup, h]
  | cons p tl ih =>
      obtain ⟨k1, v1⟩ := p
      by_cases h1 : k1 = k'
      · simp [dinsert, h1, dlookup, h]
      · simp only [dinsert, h1, if_false]
        by_cases h2 : k1 = k
        · simp [dlookup, h2]
        · simp [dlookup, h2, ih]

theorem dlookup_eq_none_of_not_mem (kw : Dict) (k : String)
    (h : k ∉ kw.map Prod.fst) : dlookup kw k = Option.none := by
  induction kw with
  | nil => rfl
  | cons p tl ih =>
      simp only [List.map_cons, List.mem_cons] at h
      push_neg at h
      have hne : ¬ p.1 = k := fun hh => h.1 hh.symm
      simp [dlookup, hne, ih h.2]

theorem not_mem_of_dlookup_eq_none (kw : Dict) (k : String)
    (h : dlookup kw k = Option.none) : k ∉ kw.map Prod.fst := by
  induction kw with
  | nil => simp
  | cons p tl ih =>
      obtain ⟨k1, v1⟩ := p
      by_cases h1 : k1 = k
      · simp [dlookup, h1] at h
      · simp only [dlookup, h1, if_false] at h
        simp only [List.map_cons, List.mem_cons]
        push_neg
        exact ⟨fun hh => h1 hh.symm, ih h⟩

theorem dlookup_dfold_of_none (g : Value → Value) (kw : Dict) (d : Dict) (k : String)
    (h : dlookup kw k = Option.none) :
    dlookup (dfold g d kw) k = dlookup d k := by
  induction kw generalizing d with
  | nil => rfl
  | cons p tl ih =>
      obtain ⟨k1, v1⟩ := p
      by_cases h1 : k1 = k
      · simp [dlookup, h1] at h
      · simp only [dlookup, h1, if_false] at h
        rw [dfold_cons, ih _ h, dlookup_dinsert_other _ _ _ _ h1]

theorem dlookup_dfold_of_some (g : Value → Value) (kw : Dict) (d : Dict) (k : String)
    (v : Value) (hnd : (kw.map Prod.fst).Nodup) (h : dlookup kw k = some v) :
    dlookup (dfold g d kw) k = some (g v) := by
  induction kw generalizing d with
  | nil => simp [dlookup] at h
  | cons p tl ih =>
      obtain ⟨k1, v1⟩ := p
      simp only [List.map_cons, List.nodup_cons] at hnd
      by_cases h1 : k1 = k
      · simp only [dlookup, h1, if_true, Option.some.injEq] at h
        have htl : dlookup tl k = Option.none :=
          dlookup_eq_none_of_not_mem _ _ (h1 ▸ hnd.1)
        rw [dfold_cons, dlookup_dfold_of_none _ _ _ _ htl]
        rw [h1, h]
        exact dlookup_dinsert_self _ _ _
      · simp only [dlookup, h1, if_false] at h
        rw [dfold_cons]
        exact ih _ hnd.2 h

theorem mergeParms_dlookup (defaults kwargs : Dict) (hooks : String → Value)
    (cmdname k : String) (hnd : (kwargs.map Prod.fst).Nodup)
    (h1 : k ≠ "prehook") (h2 : k ≠ "posthook") :
    dlookup (mergeParms defaults kwargs hooks cmdname) k =
      match dlookup kwargs k with
      | some v => some (pyforce v)
      | Option.none => dlookup defaults k := by
  unfold mergeParms
  rw [dlookup_dinsert_other _ _ _ _ (Ne.symm h2), dlookup_dinsert_other _ _ _ _ (Ne.symm h1)]
  cases hk : dlookup kwargs k with
  | none =>
      rw [dlookup_dfold_of_none _ _ _ _ hk, dlookup_dfold_of_none _ _ _ _ hk]
  | some v =>
      rw [dlookup_dfold_of_some _ _ _ _ _ hnd hk]

/-! ## Registry lemmas -/

theorem tlookup_mem {l : List (String × CmdClass × Dict)} {key : String}
    {e : CmdClass × Dict} (h : tlookup l key = some e) : (key, e) ∈ l := by
  induction l with
  | nil => simp [tlookup] at h
  | cons p tl ih =>
      obtain ⟨k1, e1⟩ := p
      by_cases h1 : k1 = key
      · simp only [tlookup, h1, if_true, Option.some.injEq] at h
        subst h1 h
        exact List.mem_cons_self _ _
      · simp only [tlookup, h1, if_false] at h
        exact List.mem_cons_of_mem _ (ih h)

theorem dlookup_mem {d : Dict} {k : String} {v : Value}
    (h : dlookup d k = some v) : (k, v) ∈ d := by
  induction d with
  | nil => simp [dlookup] at h
  | cons p tl ih =>
      obtain ⟨k1, v1⟩ := p
      by_cases h1 : k1 = k
      · simp only [dlookup, h1, if_true, Option.some.injEq] at h
        subst h1 h
        exact List.mem_cons_self _ _
      · simp only [dlookup, h1, if_false] at h
        exact List.mem_cons_of_mem _ (ih h)

theorem cmdTable_noThunk (m : Mode) :
    ((cmdTable m).all (fun e => noThunkDict e.2.2)) = true := by
  cases m <;> rfl

theorem defaults_noThunk {m : Mode} {name : String} {cls : CmdClass} {defaults : Dict}
    (h : tlookup (cmdTable m) name = some (cls, defaults))
    {k : String} {v : Value} (hv : dlookup defaults k = some v) :
    callable v = false := by
  have hmem := tlookup_mem h
  have hall := cmdTable_noThunk m
  rw [List.all_eq_true] at hall
  have hd : noThunkDict defaults = true := hall _ hmem
  unfold noThunkDict at hd
  rw [List.all_eq_true] at hd
  have := hd _ (dlookup_mem hv)
  simpa using this

theorem regLookup_noThunk {mode : Mode} {name : String} {cls : CmdClass}
    {defaults : Dict} (h : regLookup mode name = some (cls, defaults))
    {k : String} {v : Value} (hv : dlookup defaults k = some v) :
    callable v = false := by
  unfold regLookup at h
  cases h1 : tlookup (cmdTable mode) name with
  | some e =>
      rw [h1] at h
      cases h
      exact defaults_noThunk h1 hv
  | none =>
      rw [h1] at h
      exact defaults_noThunk h hv

/-! ## Factory lemmas -/

theorem construct_ok {cls : CmdClass} {parms : Dict} {c : Cmd}
    (h : construct cls parms = Except.ok c) : c.cls = cls ∧ c.parms = parms := by
  cases cls <;> simp only [construct] at h <;>
    (try split at h) <;>
    (try split at h) <;>
    (first
      | (cases h; exact ⟨rfl, rfl⟩)
      | exact absurd h (by simp))

theorem commandfactory_eq (hooks : String → Value) (cmdname : String) (mode : Mode)
    (kwargs : Dict) :
    commandfactory hooks cmdname mode kwargs =
      match regLookup mode cmdname with
      | some (cls, parms) => construct cls (mergeParms parms kwargs hooks cmdname)
      | Option.none => Except.error PyError.unboundLocalError := by
  unfold commandfactory regLookup
  cases h1 : tlookup (cmdTable mode) cmdname with
  | some e => rfl
  | none => cases h2 : tlookup (cmdTable Mode.global) cmdname <;> rfl

theorem construct_toggletag_ok (p : Dict) (v : Value)
    (h : dlookup p "tag" = some v) (ht : truthy v = true) :
    construct CmdClass.toggleThreadTagC p = Except.ok ⟨CmdClass.toggleThreadTagC, p⟩ := by
  simp [construct, h, ht]

theorem dispatch_total (env : Env) (mode : Mode) (cmd params : String)
    (hnot : ¬ (cmd = "toggletag" ∧ params = ""))
    (hmem : ((tlookup (cmdTable mode) cmd).isNone &&
             (tlookup (cmdTable Mode.global) cmd).isNone) = false) :
    ∃ r, dispatch env mode cmd params = Except.ok r := by
  by_cases h1 : cmd = "search"
  · subst h1; cases mode <;> exact ⟨_, rfl⟩
  by_cases h2 : cmd = "compose"
  · subst h2; cases mode <;> exact ⟨_, rfl⟩
  by_cases h3 : cmd = "prompt"
  · subst h3; cases mode <;> exact ⟨_, rfl⟩
  by_cases h4 : cmd = "refine"
  · subst h4
    cases mode <;> first | exact ⟨_, rfl⟩ | exact absurd hmem (by decide)
  by_cases h5 : cmd = "retag"
  · subst h5
    cases mode <;> first | exact ⟨_, rfl⟩ | exact absurd hmem (by decide)
  by_cases h6 : cmd = "subject"
  · subst h6
    cases mode <;> first | exact ⟨_, rfl⟩ | exact absurd hmem (by decide)
  by_cases h7 : cmd = "shellescape"
  · subst h7; cases mode <;> exact ⟨_, rfl⟩
  by_cases h8 : cmd = "to"
  · subst h8
    cases mode <;> first | exact ⟨_, rfl⟩ | exact absurd hmem (by decide)
  by_cases h9 : cmd = "toggletag"
  · subst h9
    have hp : params ≠ "" := fun hh => hnot ⟨rfl, hh⟩
    have ht : truthy (Value.str params) = true := by
      simp [truthy, hp]
    cases mode <;> first
      | exact absurd hmem (by decide)
      | · have hd : dispatch env Mode.search "toggletag" params =
              (construct CmdClass.toggleThreadTagC
                (mergeParms [("tag", Value.str "inbox")] [("tag", Value.str params)]
                  env.hooks "toggletag")).map some := rfl
          rw [hd, construct_toggletag_ok _ (Value.str params) (by rfl) ht]
          exact ⟨_, rfl⟩
  by_cases h10 : cmd = "fold"
  · subst h10
    cases mode <;> first | exact ⟨_, rfl⟩ | exact absurd hmem (by decide)
  by_cases h11 : cmd = "unfold"
  · subst h11
    cases mode <;> first | exact ⟨_, rfl⟩ | exact absurd hmem (by decide)
  by_cases h12 : cmd = "edit"
  · subst h12
    have hd : dispatch env mode "edit" params =
        if env.isfile (env.expanduser params) = true then
          (commandfactory env.hooks "edit" mode
            [("path", Value.str (env.expanduser params))]).map some
        else Except.ok Option.none := rfl
    by_cases hf : env.isfile (env.expanduser params) = true
    · rw [hd, if_pos hf]
      cases mode <;> exact ⟨_, rfl⟩
    · rw [hd, if_neg hf]
      exact ⟨Option.none, rfl⟩
  by_cases hnp : params = "" ∧ cmd ∈ noParamNames
  · obtain ⟨hp, hcmd⟩ := hnp
    subst hp
    fin_cases hcmd <;> first
      | exact absurd rfl h2
      | exact absurd rfl h5
      | (cases mode <;> first | exact ⟨_, rfl⟩ | exact absurd hmem (by decide))
  · refine ⟨Option.none, ?_⟩
    simp only [dispatch]
    rw [if_neg h1, if_neg h2, if_neg h3, if_neg h4, if_neg h5, if_neg h6, if_neg h7,
        if_neg h8, if_neg h9, if_neg h10, if_neg h11, if_neg h12, if_neg hnp]

theorem interpretAfterAlias_no_bang (env : Env) (mode : Mode) (cmd1 params0 : String)
    (hb : startsWithBang cmd1 = false) :
    interpretAfterAlias env mode cmd1 params0 =
      if (tlookup (cmdTable mode) cmd1).isNone &&
         (tlookup (cmdTable Mode.global) cmd1).isNone then Except.ok Option.none
      else dispatch env mode cmd1 params0 := by
  simp only [interpretAfterAlias]
  rw [hb]
  simp

theorem interpretAfterAlias_bang (env : Env) (mode : Mode) (cmd1 params0 : String)
    (hb : startsWithBang cmd1 = true) :
    interpretAfterAlias env mode cmd1 params0 =
      if (tlookup (cmdTable mode) "shellescape").isNone &&
         (tlookup (cmdTable Mode.global) "shellescape").isNone then Except.ok Option.none
      else dispatch env mode "shellescape" (pytail cmd1 ++ " " ++ params0) := by
  simp only [interpretAfterAlias]
  rw [hb]
  simp

theorem shellescape_member (mode : Mode) :
    ((tlookup (cmdTable mode) "shellescape").isNone &&
     (tlookup (cmdTable Mode.global) "shellescape").isNone) = false := by
  cases mode <;> rfl

/-! ## Heap lemmas -/

theorem commandfactoryH_heap (h : Heap) (hooks : String → Value) (name : String)
    (mode : Mode) (kwargs : Dict) :
    h.size ≤ (commandfactoryH h hooks name mode kwargs).2.size ∧
    ∀ r, r < h.size → (commandfactoryH h hooks name mode kwargs).2.mem r = h.mem r := by
  unfold commandfactoryH
  cases hl : (match regRefs mode name with
              | some e => some e
              | Option.none => regRefs Mode.global name) with
  | none => exact ⟨Nat.le_refl _, fun r _ => rfl⟩
  | some e =>
      obtain ⟨cls, r0⟩ := e
      refine ⟨Nat.le_succ _, fun r hr => ?_⟩
      have hne : r ≠ h.size := Nat.ne_of_lt hr
      simp [Heap.write, Heap.alloc, hne]

theorem commandfactoryH_fst (h : Heap) (hooks : String → Value) (name : String)
    (mode : Mode) (kwargs : Dict) :
    (commandfactoryH h hooks name mode kwargs).1 =
      match (match regRefs mode name with
             | some e => some e
             | Option.none => regRefs Mode.global name) with
      | Option.none => Except.error PyError.unboundLocalError
      | some (cls, r) => construct cls (mergeParms (h.mem r) kwargs hooks name) := by
  unfold commandfactoryH
  cases hl : (match regRefs mode name with
              | some e => some e
              | Option.none => regRefs Mode.global name) with
  | none => rfl
  | some e =>
      obtain ⟨cls, r0⟩ := e
      simp [Heap.write, Heap.alloc, mergeParms]

theorem runFactoryCalls_frame (calls : List ((String → Value) × String × Mode × Dict))
    (h : Heap) :
    h.size ≤ (runFactoryCalls h calls).size ∧
    ∀ r, r < h.size → (runFactoryCalls h calls).mem r = h.mem r := by
  induction calls generalizing h with
  | nil => exact ⟨Nat.le_refl _, fun r _ => rfl⟩
  | cons c tl ih =>
      obtain ⟨hstep, hmem⟩ := commandfactoryH_heap h c.1 c.2.1 c.2.2.1 c.2.2.2
      obtain ⟨hsz, hmm⟩ := ih (commandfactoryH h c.1 c.2.1 c.2.2.1 c.2.2.2).2
      refine ⟨Nat.le_trans hstep hsz, fun r hr => ?_⟩
      rw [runFactoryCalls]
      rw [hmm r (Nat.lt_of_lt_of_le hr hstep), hmem r hr]

theorem refAssign_lt {l : List (Mode × String × CmdClass × Dict)} {i : Nat}
    {mode : Mode} {name : String} {cls : CmdClass} {r : Nat}
    (h : refAssign l i mode name = some (cls, r)) : r < i + l.length := by
  induction l generalizing i with
  | nil => simp [refAssign] at h
  | cons p tl ih =>
      obtain ⟨m1, n1, c1, d1⟩ := p
      by_cases h1 : m1 = mode ∧ n1 = name
      · simp only [refAssign, h1, if_true, Option.some.injEq, Prod.mk.injEq] at h
        obtain ⟨hc, hr⟩ := h
        simp only [List.length_cons]
        omega
      · simp only [refAssign, h1, if_false] at h
        have := ih h
        simp only [List.length_cons]
        omega

theorem regRefs_lt {mode : Mode} {name : String} {cls : CmdClass} {r : Nat}
    (h : regRefs mode name = some (cls, r)) : r < initHeap.size := by
  have := refAssign_lt h
  simpa [initHeap] using this

theorem dispatch_eq_noparam (env : Env) (mode : Mode) (cmd params : String)
    (h1 : cmd ≠ "search") (h2 : cmd ≠ "compose") (h3 : cmd ≠ "prompt")
    (h4 : cmd ≠ "refine") (h5 : cmd ≠ "retag") (h6 : cmd ≠ "subject")
    (h7 : cmd ≠ "shellescape") (h8 : cmd ≠ "to") (h9 : cmd ≠ "toggletag")
    (h10 : cmd ≠ "fold") (h11 : cmd ≠ "unfold") (h12 : cmd ≠ "edit") :
    dispatch env mode cmd params =
      if params = "" ∧ cmd ∈ noParamNames then
        (commandfactory env.hooks cmd mode []).map some
      else Except.ok Option.none := by
  simp only [dispatch]
  rw [if_neg h1, if_neg h2, if_neg h3, if_neg h4, if_neg h5, if_neg h6, if_neg h7,
      if_neg h8, if_neg h9, if_neg h10, if_neg h11, if_neg h12]

theorem iteMember_ok_none (cond : Bool) (x : Except PyError (Option Cmd))
    (hx : x = Except.ok Option.none) :
    (if cond = true then Except.ok Option.none else x) = Except.ok Option.none := by
  cases cond <;> simp [hx]

/-! ## Claims -/

/-- C1, counterexample: the claim says no exception ever crosses the
`interpret_commandline` boundary, but `interpret_commandline('toggletag',
'search')` passes `tag=''` to `ToggleThreadTagCommand.__init__`, whose
`assert tag` raises an `AssertionError` that escapes to the caller. -/
theorem C1_counterexample_toggletag_assert :
    interpret_commandline env0 "toggletag" Mode.search =
      Except.error PyError.assertionError := by rfl

/-- C1 (amended): for every raw command line and mode,
`interpret_commandline` returns either a Command or nothing and lets no
exception escape — except when the alias-resolved command token is
`toggletag` with an empty parameter blob in search mode, where the
constructor's `assert tag` raises an `AssertionError` that escapes. -/
theorem C1_interpret_no_escape_except_toggletag (env : Env) (line : String) (mode : Mode)
    (h : ¬ (parsedCmd env line = "toggletag" ∧ parsedRest line = "" ∧
            mode = Mode.search)) :
    ∃ r, interpret_commandline env line mode = Except.ok r := by
  by_cases hline : line = ""
  · exact ⟨Option.none, by simp [interpret_commandline, hline]⟩
  · have hun : interpret_commandline env line mode =
        interpretAfterAlias env mode (parsedCmd env line) (parsedRest line) := by
      simp [interpret_commandline, hline]
    rw [hun]
    by_cases hb : startsWithBang (parsedCmd env line) = true
    · rw [interpretAfterAlias_bang _ _ _ _ hb, shellescape_member mode]
      simp only [Bool.false_eq_true, if_false]
      exact dispatch_total env mode _ _ (fun hx => absurd hx.1 (by decide))
        (shellescape_member mode)
    · have hb' : startsWithBang (parsedCmd env line) = false := by
        revert hb; cases startsWithBang (parsedCmd env line) <;> simp
      rw [interpretAfterAlias_no_bang _ _ _ _ hb']
      by_cases hm : ((tlookup (cmdTable mode) (parsedCmd env line)).isNone &&
                     (tlookup (cmdTable Mode.global) (parsedCmd env line)).isNone) = true
      · exact ⟨Option.none, by rw [if_pos hm]⟩
      · have hm' : ((tlookup (cmdTable mode) (parsedCmd env line)).isNone &&
                    (tlookup (cmdTable Mode.global) (parsedCmd env line)).isNone) = false := by
          revert hm
          cases ((tlookup (cmdTable mode) (parsedCmd env line)).isNone &&
                 (tlookup (cmdTable Mode.global) (parsedCmd env line)).isNone) <;> simp
        rw [hm']
        simp only [Bool.false_eq_true, if_false]
        refine dispatch_total env mode _ _ (fun hx => ?_) hm'
        apply h
        refine ⟨hx.1, hx.2, ?_⟩
        have hm2 := hm'
        rw [hx.1] at hm2
        cases mode <;> first | rfl | exact absurd hm2 (by decide)

/-- Witness for C1 (amended): a plain `exit` line in global mode is not
the excluded case and yields a result without exception. -/
theorem C1_witness :
    ∃ r, interpret_commandline env0 "exit" Mode.global = Except.ok r :=
  C1_interpret_no_escape_except_toggletag env0 "exit" Mode.global (by decide)

/-- C2: `commandfactory('nonexistent', 'global')` logs `there is no
command ...` but then falls through to `parms.copy()` with the local
`parms` never assigned, raising an `UnboundLocalError` that crashes the
caller — contradicting the claim (and spec) that the failure is only
logged and no exception escapes.  No Command is constructed. -/
theorem C2_unknown_command_unbound_local :
    commandfactory hooks0 "nonexistent" Mode.global [] =
      Except.error PyError.unboundLocalError := by rfl

/-- C3: in `commandfactory`, call-site parameters override the
registered defaults on key collision: outside the hook keys, a merged
parameter is the call-site value (after the callable-forcing loop) when
the key was passed at the call site, and the registry default
otherwise; in particular `toggletag` resolved in search mode with
`tag='urgent'` binds `tag='urgent'`, not the registry default `'inbox'`. -/
theorem C3_callsite_overrides_defaults :
    (∀ (hooks : String → Value) (mode : Mode) (name : String) (kwargs : Dict) (c : Cmd),
       commandfactory hooks name mode kwargs = Except.ok c →
       (kwargs.map Prod.fst).Nodup →
       ∀ k, k ≠ "prehook" → k ≠ "posthook" →
         dlookup c.parms k =
           match dlookup kwargs k with
           | some v => some (pyforce v)
           | Option.none => (regLookup mode name).bind (fun e => dlookup e.2 k))
    ∧ (∃ c, commandfactory hooks0 "toggletag" Mode.search [("tag", Value.str "urgent")] =
          Except.ok c ∧ dlookup c.parms "tag" = some (Value.str "urgent")) := by
  constructor
  · intro hooks mode name kwargs c hok hnd k hk1 hk2
    rw [commandfactory_eq] at hok
    cases hr : regLookup mode name with
    | none => rw [hr] at hok; exact absurd hok (by simp)
    | some e =>
        obtain ⟨cls, defaults⟩ := e
        rw [hr] at hok
        obtain ⟨hcls, hparms⟩ := construct_ok hok
        rw [hparms, mergeParms_dlookup _ _ _ _ _ hnd hk1 hk2]
        cases dlookup kwargs k <;> simp [hr]
  · exact ⟨cUrgent, rfl, rfl⟩

/-- Witness for C3: the `toggletag`/`'urgent'` instance through the
general statement. -/
theorem C3_witness :
    dlookup cUrgent.parms "tag" = some (pyforce (Value.str "urgent")) :=
  C3_callsite_overrides_defaults.1 hooks0 Mode.search "toggletag"
    [("tag", Value.str "urgent")] cUrgent rfl (by decide) "tag" (by decide) (by decide)

/-- C4: a name absent from the mode's own table is resolved through the
`global` table, so resolving it in any mode gives the same result (same
class, same merged parameters) as resolving it in `global` mode. -/
theorem C4_global_fallback (hooks : String → Value) (name : String) (mode : Mode)
    (kwargs : Dict)
    (hg : (tlookup (cmdTable Mode.global) name).isSome = true)
    (hm : mode = Mode.global ∨ tlookup (cmdTable mode) name = Option.none) :
    commandfactory hooks name mode kwargs =
      commandfactory hooks name Mode.global kwargs := by
  rcases hm with hm | hm
  · rw [hm]
  · unfold commandfactory
    rw [hm]
    cases hgl : tlookup (cmdTable Mode.global) name with
    | some e => rfl
    | none => simp [hgl] at hg

/-- Witness for C4: `exit` is registered only in `global`; resolving it
from search mode equals resolving it in global mode. -/
theorem C4_witness :
    commandfactory hooks0 "exit" Mode.search [] =
      commandfactory hooks0 "exit" Mode.global [] :=
  C4_global_fallback hooks0 "exit" Mode.search [] (by rfl) (Or.inr (by rfl))

/-- C5: `FlushCommand.apply` catches `DatabaseLockedError`: it returns
normally after scheduling a re-run of itself after the configured
`flush_retry_timeout` and pushing the transient notification; it never
returns an error for any store; and with a store that is locked on the
first two attempts and commits on the third, running the scheduled
alarms flushes the index after exactly three attempts with no manual
re-invocation and no pending alarm left. -/
theorem C5_flush_locked_retry :
    (∀ ui : FlushUI, ui.store ui.attempts = false →
        flushApply ui = Except.ok { ui with
          attempts := ui.attempts + 1,
          alarms := ui.timeout :: ui.alarms,
          notifications := lockedMsg ui.timeout :: ui.notifications })
    ∧ (∀ ui : FlushUI, ∃ ui1, flushApply ui = Except.ok ui1)
    ∧ ((flushApply flushScenarioUI >>= fun u => runAlarms u 10).map
         (fun u => (u.flushed, u.attempts, u.alarms))) = Except.ok (true, 3, []) := by
  refine ⟨?_, ?_, ?_⟩
  · intro ui hlock
    simp [flushApply, dbman_flush, hlock]
  · intro ui
    by_cases hs : ui.store ui.attempts = true
    · exact ⟨{ ui with attempts := ui.attempts + 1, flushed := true },
        by simp [flushApply, dbman_flush, hs]⟩
    · have hs' : ui.store ui.attempts = false := by
        revert hs; cases ui.store ui.attempts <;> simp
      exact ⟨{ ui with attempts := ui.attempts + 1,
                       alarms := ui.timeout :: ui.alarms,
                       notifications := lockedMsg ui.timeout :: ui.notifications },
        by simp [flushApply, dbman_flush, hs']⟩
  · rfl

/-- Witness for C5: one locked attempt against an always-locked store
with `flush_retry_timeout = 7` returns normally, schedules the retry
and notifies. -/
theorem C5_witness :
    flushApply uiLockedEx = Except.ok { uiLockedEx with
      attempts := 1, alarms := [7], notifications := [lockedMsg 7] } :=
  C5_flush_locked_retry.1 uiLockedEx rfl

/-- C6, counterexample: the claim says the parameter blob is everything
after the `!`, but for `interpret('!ls', 'global')` the code computes
`cmd[1:] + ' ' + params` = `'ls '` — everything after the `!` is `'ls'`,
and the bound blob `'ls '` differs from it by a trailing space. -/
theorem C6_counterexample_bang_trailing_space :
    (interpret_commandline env0 "!ls" Mode.global).map
        (Option.map (fun c => dlookup c.parms "commandstring")) =
      Except.ok (some (some (Value.str "ls "))) ∧
    Value.str "ls " ≠ Value.str "ls" := by
  constructor
  · rfl
  · intro hcon
    have h2 : "ls " = "ls" := by injection hcon
    exact absurd h2 (by decide)

/-- C6 (amended): a first token beginning with `!` (after alias
resolution) is rewritten to the `shellescape` pseudo-command, and the
bound `commandstring` is the text glued to the `!` followed by a single
space followed by the rest of the line — which equals everything after
the `!` whenever a rest is present, and carries a trailing space when it
is not; in particular `interpret('!ls -la', 'global')` binds
`commandstring 'ls -la'` (see the witness). -/
theorem C6_bang_shellescape (env : Env) (mode : Mode) (line : String)
    (hline : line ≠ "")
    (hb : startsWithBang (parsedCmd env line) = true) :
    ∃ c, interpret_commandline env line mode = Except.ok (some c) ∧
      c.cls = CmdClass.externalC ∧
      dlookup c.parms "commandstring" =
        some (Value.str (pytail (parsedCmd env line) ++ " " ++ parsedRest line)) := by
  have hun : interpret_commandline env line mode =
      interpretAfterAlias env mode (parsedCmd env line) (parsedRest line) := by
    simp [interpret_commandline, hline]
  rw [hun, interpretAfterAlias_bang _ _ _ _ hb, shellescape_member mode]
  simp only [Bool.false_eq_true, if_false]
  cases mode <;> exact ⟨_, rfl, rfl, rfl⟩

/-- Witness for C6 (amended): the spec's own instance,
`interpret('!ls -la', 'global')` → shell-escape with `'ls -la'`. -/
theorem C6_witness :
    ∃ c, interpret_commandline env0 "!ls -la" Mode.global = Except.ok (some c) ∧
      c.cls = CmdClass.externalC ∧
      dlookup c.parms "commandstring" = some (Value.str "ls -la") :=
  C6_bang_shellescape env0 Mode.global "!ls -la" (by decide) (by rfl)

/-- C7: a command of the no-parameter group (the names of the final
`elif` of `interpret_commandline` except `compose` and `retag`, which
earlier branches intercept with their own parameter mapping) is
dispatched only when the remainder is empty: with a non-empty remainder
the interpreter silently produces nothing; in particular
`interpret('exit extra-garbage', 'global')` yields nothing. -/
theorem C7_noparam_rejects_nonempty_rest :
    (∀ (env : Env) (mode : Mode) (line : String),
       line ≠ "" →
       parsedCmd env line ∈ noParamNames →
       parsedCmd env line ≠ "compose" →
       parsedCmd env line ≠ "retag" →
       parsedRest line ≠ "" →
       interpret_commandline env line mode = Except.ok Option.none)
    ∧ interpret_commandline env0 "exit extra-garbage" Mode.global =
        Except.ok Option.none := by
  constructor
  · intro env mode line hline hmem hc hr hrest
    have hun : interpret_commandline env line mode =
        interpretAfterAlias env mode (parsedCmd env line) (parsedRest line) := by
      simp [interpret_commandline, hline]
    rw [hun]
    simp only [noParamNames, List.mem_cons, List.not_mem_nil, or_false] at hmem
    rcases hmem with h|h|h|h|h|h|h|h|h|h|h|h|h|h|h|h|h|h|h|h|h|h|h <;>
      first
        | exact absurd h hc
        | exact absurd h hr
        | (rw [h, interpretAfterAlias_no_bang _ _ _ _ (by rfl)]
           apply iteMember_ok_none
           rw [dispatch_eq_noparam _ _ _ _ (by decide) (by decide) (by decide) (by decide)
                 (by decide) (by decide) (by decide) (by decide) (by decide) (by decide)
                 (by decide) (by decide),
               if_neg (fun hx => hrest hx.1)])
  · rfl

/-- Witness for C7: the `exit extra-garbage` instance through the
general statement. -/
theorem C7_witness :
    interpret_commandline env0 "exit extra-garbage" Mode.global =
      Except.ok Option.none :=
  C7_noparam_rejects_nonempty_rest.1 env0 Mode.global "exit extra-garbage"
    (by decide) (by decide) (by decide) (by decide) (by decide)

/-- C8: alias substitution is applied exactly once: when the first
token has an alias, the interpreter continues with the expansion and
performs no further alias lookup — with a table mapping `x` to `exit`
and `exit` to `flush`, `interpret('x', 'global')` yields the Exit
command (one expansion), not the Flush command (two expansions). -/
theorem C8_alias_once :
    (∀ (env : Env) (mode : Mode) (line : String) (e : String),
       line ≠ "" →
       env.aliases (splitOnce (pystrip line)).1 = some e →
       interpret_commandline env line mode =
         interpretAfterAlias env mode e (splitOnce (pystrip line)).2)
    ∧ (interpret_commandline envChain "x" Mode.global).map (Option.map Cmd.cls) =
        Except.ok (some CmdClass.exitC) := by
  constructor
  · intro env mode line e hline halias
    simp [interpret_commandline, hline, parsedCmd, parsedRest, halias]
  · rfl

/-- Witness for C8: the chained-alias table applied to `x` goes through
the single-substitution equation with expansion `exit`. -/
theorem C8_witness :
    interpret_commandline envChain "x" Mode.global =
      interpretAfterAlias envChain Mode.global "exit" (splitOnce (pystrip "x")).2 :=
  C8_alias_once.1 envChain Mode.global "x" "exit" (by decide) (by rfl)

/-- C9: every value of the overlaid mapping (registered defaults updated
with the call-site arguments) that is a zero-argument callable is
invoked and its result substituted before the Command is constructed.
The registry holds no callable defaults (`defaults_noThunk`), so such a
value necessarily comes from the call site, and the forcing loop of
`commandfactory` replaces it with its result. -/
theorem C9_callables_forced :
    ∀ (hooks : String → Value) (mode : Mode) (name : String) (cls : CmdClass)
      (defaults kwargs : Dict) (c : Cmd) (k : String) (v : Value),
      regLookup mode name = some (cls, defaults) →
      commandfactory hooks name mode kwargs = Except.ok c →
      (kwargs.map Prod.fst).Nodup →
      k ≠ "prehook" → k ≠ "posthook" →
      dlookup (dfold id defaults kwargs) k = some v →
      callable v = true →
      dlookup c.parms k = some (force v) := by
  intro hooks mode name cls defaults kwargs c k v hr hok hnd hk1 hk2 hov hcall
  rw [commandfactory_eq, hr] at hok
  obtain ⟨hcls, hparms⟩ := construct_ok hok
  rw [hparms, mergeParms_dlookup _ _ _ _ _ hnd hk1 hk2]
  cases hkw : dlookup kwargs k with
  | some w =>
      have hw : dlookup (dfold id defaults kwargs) k = some w := by
        have := dlookup_dfold_of_some id kwargs defaults k w hnd hkw
        simpa using this
      rw [hw] at hov
      cases hov
      simp [pyforce, hcall]
  | none =>
      rw [dlookup_dfold_of_none _ _ _ _ hkw] at hov
      have hnc := regLookup_noThunk hr hov
      rw [hcall] at hnc
      exact absurd hnc (by decide)

/-- Witness for C9: a deferred `query` passed to `search` is invoked,
and the constructed command holds the produced value. -/
theorem C9_witness :
    dlookup cEx.parms "query" = some (Value.str "live") :=
  C9_callables_forced hooks0 Mode.global "search" CmdClass.searchC [] kwEx cEx
    "query" (Value.thunk (fun _ => Value.str "live")) rfl rfl (by decide)
    (by decide) (by decide) rfl rfl

/-- C10: `commandfactory` never mutates the registry: in the heap model
where each registered default dict is a mutable cell and `parms.copy()`
allocates a fresh cell, any sequence of resolutions leaves every
already-allocated cell — in particular every default-parameter dict of
`COMMANDS` — unchanged, and a later resolution returns the same result
as it would have against the untouched registry. -/
theorem C10_factory_preserves_registry :
    (∀ (calls : List ((String → Value) × String × Mode × Dict)) (r : Nat),
       r < initHeap.size →
       (runFactoryCalls initHeap calls).mem r = initHeap.mem r)
    ∧ (∀ (calls : List ((String → Value) × String × Mode × Dict))
         (hooks : String → Value) (name : String) (mode : Mode) (kwargs : Dict),
       (commandfactoryH (runFactoryCalls initHeap calls) hooks name mode kwargs).1 =
         (commandfactoryH initHeap hooks name mode kwargs).1) := by
  constructor
  · intro calls r hr
    exact (runFactoryCalls_frame calls initHeap).2 r hr
  · intro calls hooks name mode kwargs
    rw [commandfactoryH_fst, commandfactoryH_fst]
    cases hl : (match regRefs mode name with
                | some e => some e
                | Option.none => regRefs Mode.global name) with
    | none => rfl
    | some e =>
        obtain ⟨cls, r⟩ := e
        have hr : r < initHeap.size := by
          cases hmm : regRefs mode name with
          | some e2 =>
              have h3 := hl
              rw [hmm] at h3
              have h2 : regRefs mode name = some (cls, r) := by
                rw [hmm]
                exact h3
              exact regRefs_lt h2
          | none =>
              have h3 := hl
              rw [hmm] at h3
              exact regRefs_lt h3
        show construct cls (mergeParms ((runFactoryCalls initHeap calls).mem r) kwargs hooks name) =
          construct cls (mergeParms (initHeap.mem r) kwargs hooks name)
        rw [(runFactoryCalls_frame calls initHeap).2 r hr]

/-- Witness for C10: after resolving `toggletag` with `tag='urgent'`,
the cell of the `toggletag` entry (address 3, its default
`{'tag': 'inbox'}`) is unchanged. -/
theorem C10_witness :
    (runFactoryCalls initHeap
        [(hooks0, "toggletag", Mode.search, [("tag", Value.str "urgent")])]).mem 3 =
      initHeap.mem 3 :=
  C10_factory_preserves_registry.1
    [(hooks0, "toggletag", Mode.search, [("tag", Value.str "urgent")])] 3 (by decide)
